import Mathlib

/-!
Shallow embedding of the transaction coordinator in
src/src/server/transaction.cc, together with proofs that settle the frozen
claims about it.  Pure data of the source (masks, queues, lock counts) is
embedded directly; the external collaborators named by the spec section 6
(the per-shard lock table of DbSlice, the whole-shard IntentLock, the
transaction queue) are modelled by counting semantics that realise exactly
the interface the coordinator consumes.  Machine integers are modelled as
Nat with explicit wrap-around where the source relies on it (the uint16
mask arithmetic of RemoveFromWatchedShardCb).
-/

namespace Dfly

abbrev TxId := Nat

/-- Modelled from the spec: the numeric values of the per-shard local mask
flags are declared in server/transaction.h, which is not among the source
files; spec section 3 lists the flags in the order ARMED, KEYLOCK_ACQUIRED,
OUT_OF_ORDER, SUSPENDED_Q, AWAKED_Q, EXPIRED_Q, so they are modelled as
single bits in that order. -/
def ARMED : Nat := 1

def KEYLOCK_ACQUIRED : Nat := 2

def OUT_OF_ORDER : Nat := 4

def SUSPENDED_Q : Nat := 8

def AWAKED_Q : Nat := 16

def EXPIRED_Q : Nat := 32

/-- Modelled from the spec: coordinator_state flags, spec section 3 order
SCHED, OOO, EXEC, EXEC_CONCLUDING, BLOCKED, CANCELLED, as single bits. -/
def COORD_SCHED : Nat := 1

def COORD_OOO : Nat := 2

def COORD_EXEC : Nat := 4

def COORD_EXEC_CONCLUDING : Nat := 8

def COORD_BLOCKED : Nat := 16

def COORD_CANCELLED : Nat := 32

/-- Clearing a flag, the uint16 operation mask &= ~flag of the source. -/
def maskClear (m f : Nat) : Nat := m &&& (65535 ^^^ f)

/-- IntentLock modes (shared for READONLY commands, exclusive otherwise). -/
inductive IntentMode where
  | shared : IntentMode
  | exclusive : IntentMode
deriving DecidableEq, Repr

/-- A per-key (or whole-shard) intent lock: counts of shared and exclusive
holders.  Int so that acquire and release are exact inverses. -/
abbrev LockCnt := Int × Int

def lockInc (m : IntentMode) (c : LockCnt) : LockCnt :=
  match m with
  | .shared => (c.1 + 1, c.2)
  | .exclusive => (c.1, c.2 + 1)

def lockDec (m : IntentMode) (c : LockCnt) : LockCnt :=
  match m with
  | .shared => (c.1 - 1, c.2)
  | .exclusive => (c.1, c.2 - 1)

/-- IntentLock::Check(mode): the lock can be taken in this mode without
contention. -/
def lockFree (m : IntentMode) (c : LockCnt) : Bool :=
  match m with
  | .shared => c.2 == 0
  | .exclusive => c.1 == 0 && c.2 == 0

/-- The lock table of one shard of DbSlice: per key a pair of holder counts. -/
abbrev LockTable := String → LockCnt

def tableUpd (t : LockTable) (k : String) (f : LockCnt → LockCnt) : LockTable :=
  fun k2 => if k2 = k then f (t k2) else t k2

/-- DbSlice::Acquire(mode, keys): every key is locked unconditionally; the
returned Bool says whether all of them were uncontended. -/
def acquireKeys (m : IntentMode) (keys : List String) (t : LockTable) :
    LockTable × Bool :=
  keys.foldl (fun acc k => (tableUpd acc.1 k (lockInc m), acc.2 && lockFree m (acc.1 k)))
    (t, true)

/-- DbSlice::Release(mode, keys). -/
def releaseKeys (m : IntentMode) (keys : List String) (t : LockTable) : LockTable :=
  keys.foldl (fun acc k => tableUpd acc k (lockDec m)) t

/-- DbSlice::CheckLock(mode, keys): true when no key is contended. -/
def checkKeys (m : IntentMode) (keys : List String) (t : LockTable) : Bool :=
  keys.all (fun k => lockFree m (t k))

/-- One engine shard as the coordinator sees it: committed_txid, the
transaction queue (scores in insertion order, TailScore the last score),
the key lock table, the whole-shard lock and the watched-key table. -/
structure EngineShard where
  committed_txid : TxId
  txq : List TxId
  locks : LockTable
  shard_lock : LockCnt
  watches : List (String × TxId)

/-- TxQueue::TailScore, read only under a non-empty queue. -/
def tailScore (q : List TxId) : TxId := (q.getLast?).getD 0

/-- One per-shard slot of shard_data: arg_start and arg_count are Int
because the source stores the sentinel -1 into them; pq_pos none models
TxQueue::kEnd. -/
structure PerShardData where
  arg_start : Int := 0
  arg_count : Int := 0
  pq_pos : Option Nat := none
  local_mask : Nat := 0

def defaultSD : PerShardData := ⟨0, 0, none, 0⟩

def emptyTable : LockTable := fun _ => (0, 0)

def defaultShard : EngineShard := ⟨0, [], emptyTable, (0, 0), []⟩

/-- Modelled from the spec: SidToId is declared in server/transaction.h
(not among the source files); the case analysis comment at transaction.cc
lines 123-141 fixes it: a single-shard non-multi transaction keeps
shard_data of size one and uses slot 0, otherwise the slot index is the
shard id. -/
def sidToId (sdSize sid : Nat) : Nat := if sdSize = 1 then 0 else sid

/-- The global txid counter op_seq starts at 1 (transaction.cc line 23);
txidAt n is the value returned by the n-th fetch_add(1). -/
def opSeqInit : Nat := 1

def txidAt (n : Nat) : TxId := opSeqInit + n

/-- Status values surfaced by callbacks (spec section 7). -/
inductive OpStatus where
  | ok : OpStatus
  | key_notfound : OpStatus
  | wrong_type : OpStatus
deriving DecidableEq, Repr

/-! NotifySuspended, transaction.cc lines 1115-1146.  The entry
CHECK_NE(0u, local_mask & SUSPENDED_Q) aborts the process when the slot
does not hold SUSPENDED_Q; that abort is modelled as none.  Otherwise the
result is some (local_mask, notify_txid, cv_notified, return value); the
CAS loop on notify_txid lowers it exactly when committed_txid is smaller,
and notifies the condition variable exactly in that case. -/

def notifySuspended (committed : TxId) (notify : TxId) (mask : Nat) :
    Option (Nat × TxId × Bool × Bool) :=
  if mask &&& SUSPENDED_Q = 0 then none
  else if mask &&& EXPIRED_Q ≠ 0 then some (mask, notify, false, false)
  else if mask &&& SUSPENDED_Q ≠ 0 then
    some ((maskClear mask SUSPENDED_Q) ||| AWAKED_Q, min committed notify,
      decide (committed < notify), true)
  else some (mask, notify, false, true)

/-! RemoveFromWatchedShardCb, transaction.cc lines 1077-1095. -/

/-- EngineShard::RemovedWatched(key, tx). -/
def removedWatched (tx : TxId) (w : List (String × TxId)) (k : String) :
    List (String × TxId) :=
  w.filter (fun e => !(e.1 == k && e.2 == tx))

/-- The source computes the constexpr uint16_t
-SUSPENDED_Q | AWAKED_Q | EXPIRED_Q; unary minus on the uint16 value is
two-complement, 65536 - SUSPENDED_Q. -/
def kQueueMask : Nat := (65536 - SUSPENDED_Q) ||| AWAKED_Q ||| EXPIRED_Q

structure RemoveWatchOut where
  shard : EngineShard
  local_mask : Nat
  removed : Bool

def removeFromWatchedShardCb (tx : TxId) (args : List String)
    (shard : EngineShard) (mask : Nat) : RemoveWatchOut :=
  if mask &&& kQueueMask = 0 then ⟨shard, mask, false⟩
  else
    ⟨{ shard with watches := args.foldl (removedWatched tx) shard.watches },
      mask &&& kQueueMask, true⟩

/-! ScheduleInShard and CancelInShard, transaction.cc lines 871-956. -/

structure ScheduleInShardOut where
  shard : EngineShard
  sd : PerShardData
  scheduled : Bool
  lock_granted : Bool

/-- The lock_granted computation of ScheduleInShard lines 889-898: for
non-global transactions the keys are acquired unconditionally and the
grant also requires the whole-shard lock to be free; a global transaction
never reports a grant here. -/
def lockGrantedCalc (global : Bool) (mode : IntentMode) (lockArgs : List String)
    (shard : EngineShard) : Bool :=
  !global && (acquireKeys mode lockArgs shard.locks).2 && lockFree mode shard.shard_lock

/-- Queue insertion at lines 924-926: append, record the iterator. -/
def schedInsert (txid : TxId) (granted : Bool) (shard : EngineShard)
    (sd : PerShardData) : ScheduleInShardOut :=
  ⟨{ shard with txq := shard.txq ++ [txid] },
    { sd with pq_pos := some shard.txq.length }, true, granted⟩

def scheduleInShard (txid : TxId) (global : Bool) (mode : IntentMode)
    (lockArgs : List String) (shard : EngineShard) (sd : PerShardData) :
    ScheduleInShardOut :=
  if txid ≤ shard.committed_txid then ⟨shard, sd, false, false⟩
  else
    let granted := lockGrantedCalc global mode lockArgs shard
    let shard1 :=
      if global then shard
      else { shard with locks := (acquireKeys mode lockArgs shard.locks).1 }
    let sd1 :=
      if global then sd
      else { sd with local_mask := sd.local_mask ||| KEYLOCK_ACQUIRED }
    if shard.txq = [] then schedInsert txid granted shard1 sd1
    else if granted || decide (tailScore shard.txq < txid) then
      schedInsert txid granted shard1 sd1
    else
      let shard2 :=
        if sd1.local_mask &&& KEYLOCK_ACQUIRED ≠ 0 then
          { shard1 with locks := releaseKeys mode lockArgs shard1.locks }
        else shard1
      ⟨shard2, { sd1 with local_mask := maskClear sd1.local_mask KEYLOCK_ACQUIRED },
        false, false⟩

def cancelInShard (mode : IntentMode) (lockArgs : List String)
    (shard : EngineShard) (sd : PerShardData) : EngineShard × PerShardData × Bool :=
  match sd.pq_pos with
  | none => (shard, sd, false)
  | some p =>
    let sd1 : PerShardData := { sd with pq_pos := none }
    let shard1 : EngineShard := { shard with txq := shard.txq.eraseIdx p }
    if sd1.local_mask &&& KEYLOCK_ACQUIRED ≠ 0 then
      ({ shard1 with locks := releaseKeys mode lockArgs shard1.locks },
        { sd1 with local_mask := maskClear sd1.local_mask KEYLOCK_ACQUIRED }, true)
    else (shard1, sd1, true)

/-! ScheduleUniqueShard, transaction.cc lines 836-868: the single-shard
fast path.  The callback of RunQuickie is external to this fragment; the
embedding records the mask and txid effects. -/

structure UniqueShardOut where
  shard : EngineShard
  sd : PerShardData
  txid : TxId
  eager : Bool

def scheduleUniqueShard (opSeq : Nat) (mode : IntentMode) (lockArgs : List String)
    (shard : EngineShard) (sd : PerShardData) : UniqueShardOut :=
  if checkKeys mode lockArgs shard.locks then
    ⟨shard, { sd with local_mask := maskClear sd.local_mask ARMED }, 0, true⟩
  else
    let pos := shard.txq.length
    let acq := acquireKeys mode lockArgs shard.locks
    ⟨{ shard with txq := shard.txq ++ [opSeq], locks := acq.1 },
      { sd with pq_pos := some pos, local_mask := sd.local_mask ||| KEYLOCK_ACQUIRED },
      opSeq, false⟩

/-! RunInShard, transaction.cc lines 319-412.  The user callback is a
parameter; it may rewrite the slot (AddToWatchedShardCb sets SUSPENDED_Q
there) and the shard state, and yields an OpStatus.  ProcessAwakened and
the run_count barrier are external collaborators without modelled state. -/

abbrev Runnable := PerShardData → EngineShard → PerShardData × EngineShard × OpStatus

structure RunInShardOut where
  sd : PerShardData
  shard : EngineShard
  local_result : Option OpStatus
  keep : Bool

def runInShard (concluding multi incremental global : Bool) (uniqueCnt : Nat)
    (mode : IntentMode) (lockArgs : List String) (cb : Runnable)
    (sd : PerShardData) (shard : EngineShard) : RunInShardOut :=
  -- line 334: clear ARMED
  let sd0 : PerShardData := { sd with local_mask := maskClear sd.local_mask ARMED }
  -- lines 351-356: incremental locking for multi transactions
  let incr := multi && incremental && (sd0.local_mask &&& KEYLOCK_ACQUIRED == 0)
  let sd1 : PerShardData :=
    if incr then { sd0 with local_mask := sd0.local_mask ||| KEYLOCK_ACQUIRED } else sd0
  let shard1 : EngineShard :=
    if incr then { shard with locks := (acquireKeys mode lockArgs shard.locks).1 }
    else shard
  -- line 362: the callback
  let r := cb sd1 shard1
  let sd2 := r.1
  let shard2 := r.2.1
  let status := r.2.2
  -- lines 377-380: remove the queue entry recorded at scheduling
  let sd3 : PerShardData :=
    match sd2.pq_pos with
    | some _ => { sd2 with pq_pos := none }
    | none => sd2
  let shard3 : EngineShard :=
    match sd2.pq_pos with
    | some p => { shard2 with txq := shard2.txq.eraseIdx p }
    | none => shard2
  -- lines 346 and 383-406: conditional release on the concluding hop
  let should_release := concluding && !multi
  let out :=
    if should_release then
      if global then
        (sd3, { shard3 with shard_lock := lockDec mode shard3.shard_lock })
      else
        let suspended := sd3.local_mask &&& SUSPENDED_Q ≠ 0
        let shard4 : EngineShard :=
          if suspended then shard3
          else { shard3 with locks := releaseKeys mode lockArgs shard3.locks }
        let mask4 := if suspended then sd3.local_mask
          else maskClear sd3.local_mask KEYLOCK_ACQUIRED
        ({ sd3 with local_mask := maskClear mask4 OUT_OF_ORDER }, shard4)
    else (sd3, shard3)
  ⟨out.1, out.2, if uniqueCnt = 1 then some status else none, !should_release⟩

/-! ExpireBlocking and WaitOnWatch, transaction.cc lines 776-818 and
980-1048.  The collections of shards and slots are indexed by shard id;
for a single-shard transaction the slot index is 0 (shard_data has size
one) while the shard index stays unique_shard_id. -/

/-- The body of expire_cb, lines 782-800. -/
def expireShardCb (mode : IntentMode) (lockArgs : List String)
    (shard : EngineShard) (sd : PerShardData) : EngineShard × PerShardData :=
  ({ shard with locks := releaseKeys mode lockArgs shard.locks },
    { sd with local_mask := maskClear (sd.local_mask ||| EXPIRED_Q) KEYLOCK_ACQUIRED })

def expireBlocking (uniqueCnt uniqueId : Nat) (mode : IntentMode)
    (argsOf : Nat → List String) (shards : Nat → EngineShard)
    (sds : Nat → PerShardData) : (Nat → EngineShard) × (Nat → PerShardData) :=
  if uniqueCnt = 1 then
    (fun i => if i = uniqueId then
        (expireShardCb mode (argsOf uniqueId) (shards uniqueId) (sds 0)).1
      else shards i,
      fun j => if j = 0 then
        (expireShardCb mode (argsOf uniqueId) (shards uniqueId) (sds 0)).2
      else sds j)
  else
    (fun i => if (sds i).arg_count ≠ 0 then
        (expireShardCb mode (argsOf i) (shards i) (sds i)).1
      else shards i,
      fun i => if (sds i).arg_count ≠ 0 then
        (expireShardCb mode (argsOf i) (shards i) (sds i)).2
      else sds i)

structure WaitOnWatchOut where
  shards : Nat → EngineShard
  sds : Nat → PerShardData
  coordinator_state : Nat
  result : Bool

/-- The decision of WaitOnWatch after the condition-variable wait, lines
987 and 1009-1047: coord is coordinator_state at wake (COORD_BLOCKED was
set at line 987 before the wait), timedOut says the await_until call
returned cv_status::timeout.  The AddToWatchedShardCb hop before the wait
and the convergence barrier of the normal wake are external here. -/
def waitOnWatch (timedOut : Bool) (coord : Nat) (uniqueCnt uniqueId : Nat)
    (mode : IntentMode) (argsOf : Nat → List String) (shards : Nat → EngineShard)
    (sds : Nat → PerShardData) : WaitOnWatchOut :=
  if coord &&& COORD_CANCELLED ≠ 0 || timedOut then
    let e := expireBlocking uniqueCnt uniqueId mode argsOf shards sds
    ⟨e.1, e.2, maskClear coord COORD_BLOCKED, false⟩
  else
    ⟨shards, sds, maskClear coord COORD_BLOCKED, true⟩

/-! UnlockMulti, transaction.cc lines 585-654.  For a multi transaction
shard_data always has one slot per shard (InitByArgs never shrinks it),
so slot indices coincide with shard ids.  ShutdownMulti, ProcessAwakened
and PollExecution are external collaborators without modelled state. -/

/-- Release of the two recorded counts of one key, lines 608-617. -/
def releaseCnt (k : String) (cnt : Nat × Nat) (t : LockTable) : LockTable :=
  let t1 := if cnt.1 ≠ 0 then tableUpd t k (fun c => (c.1 - (cnt.1 : Int), c.2)) else t
  if cnt.2 ≠ 0 then tableUpd t1 k (fun c => (c.1, c.2 - (cnt.2 : Int))) else t1

/-- The per-shard callback of UnlockMulti, lines 600-642, applied to the
keys of multi.locks that the router maps to this shard. -/
def unlockMultiCb (global : Bool) (keys : List (String × Nat × Nat))
    (shard : EngineShard) (sd : PerShardData) : EngineShard × PerShardData :=
  let shard1 : EngineShard :=
    if global then { shard with shard_lock := lockDec .exclusive shard.shard_lock }
    else shard
  let shard2 : EngineShard :=
    { shard1 with locks := keys.foldl (fun t kv => releaseCnt kv.1 kv.2 t) shard1.locks }
  match sd.pq_pos with
  | some _ => ({ shard2 with txq := shard2.txq.tail }, { sd with pq_pos := none })
  | none => (shard2, sd)

structure UnlockMultiOut where
  shards : Nat → EngineShard
  sds : Nat → PerShardData

def unlockMulti (global : Bool) (locks : List (String × Nat × Nat))
    (router : String → Nat) (numShards : Nat) (shards : Nat → EngineShard)
    (sds : Nat → PerShardData) : UnlockMultiOut :=
  ⟨fun i => if i < numShards then
      (unlockMultiCb global (locks.filter (fun kv => router kv.1 == i)) (shards i) (sds i)).1
    else shards i,
    fun i => if i < numShards then
      (unlockMultiCb global (locks.filter (fun kv => router kv.1 == i)) (shards i) (sds i)).2
    else sds i⟩

/-! ScheduleInternal, transaction.cc lines 445-522.  The per-round
dispatch over the active shards and the cancel round are sequential folds
over the list of active shard ids; the results component mirrors the
success and lock_granted_cnt accumulators of lines 480-486, one pair of
Bools per active shard of the last round. -/

structure SchedState where
  shards : Nat → EngineShard
  sds : Nat → PerShardData

def schedRoundStep (txid : TxId) (global : Bool) (mode : IntentMode)
    (argsOf : Nat → List String) (sdSize : Nat)
    (acc : SchedState × List (Bool × Bool)) (i : Nat) :
    SchedState × List (Bool × Bool) :=
  let out := scheduleInShard txid global mode (argsOf i) (acc.1.shards i)
    (acc.1.sds (sidToId sdSize i))
  (⟨fun j => if j = i then out.shard else acc.1.shards j,
    fun j => if j = sidToId sdSize i then out.sd else acc.1.sds j⟩,
    acc.2 ++ [(out.scheduled, out.lock_granted)])

def schedRound (txid : TxId) (global : Bool) (mode : IntentMode)
    (argsOf : Nat → List String) (sdSize : Nat) (active : List Nat)
    (st : SchedState) : SchedState × List (Bool × Bool) :=
  active.foldl (schedRoundStep txid global mode argsOf sdSize) (st, [])

def cancelRound (mode : IntentMode) (argsOf : Nat → List String) (sdSize : Nat)
    (active : List Nat) (st : SchedState) : SchedState :=
  active.foldl (fun acc i =>
      let out := cancelInShard mode (argsOf i) (acc.shards i) (acc.sds (sidToId sdSize i))
      ⟨fun j => if j = i then out.1 else acc.shards j,
        fun j => if j = sidToId sdSize i then out.2.1 else acc.sds j⟩)
    st

structure SchedOut where
  coordinator_state : Nat
  txid : TxId
  opSeq : Nat
  state : SchedState
  results : List (Bool × Bool)

def scheduleInternalGo (global single_hop : Bool) (mode : IntentMode)
    (argsOf : Nat → List String) (sdSize numShards : Nat) (active : List Nat) :
    Nat → Nat → Nat → SchedState → Option SchedOut
  | 0, _, _, _ => none
  | Nat.succ fuel, opSeq, coord, st =>
    -- line 478: txid_ = op_seq.fetch_add(1)
    let txid := opSeq
    let round := schedRound txid global mode argsOf sdSize active st
    let success := round.2.countP (fun p => p.1)
    let lockCnt := round.2.countP (fun p => p.2)
    if success = numShards then
      -- lines 491-504
      let coord1 := if single_hop && (lockCnt == numShards) then coord ||| COORD_OOO
        else coord
      let coord2 := coord1 ||| COORD_SCHED
      -- lines 517-521: propagate OUT_OF_ORDER into every slot
      let st2 : SchedState :=
        if coord2 &&& COORD_OOO ≠ 0 then
          ⟨round.1.shards,
            fun j => { round.1.sds j with
              local_mask := (round.1.sds j).local_mask ||| OUT_OF_ORDER }⟩
        else round.1
      some ⟨coord2, txid, opSeq + 1, st2, round.2⟩
    else
      -- lines 507-514: cancel everywhere, retry with a fresh txid
      scheduleInternalGo global single_hop mode argsOf sdSize numShards active
        fuel (opSeq + 1) coord (cancelRound mode argsOf sdSize active round.1)

def scheduleInternal (global : Bool) (mode : IntentMode)
    (argsOf : Nat → List String) (sdSize numShards : Nat) (active : List Nat)
    (fuel opSeq coord : Nat) (st : SchedState) : Option SchedOut :=
  -- line 450: single_hop is read from coordinator_state at entry
  let single_hop := coord &&& COORD_EXEC_CONCLUDING ≠ 0
  -- lines 461-467: a global transaction first locks every shard
  let st0 : SchedState :=
    if global then
      ⟨fun i => { st.shards i with shard_lock := lockInc mode (st.shards i).shard_lock },
        st.sds⟩
    else st
  scheduleInternalGo global single_hop mode argsOf sdSize numShards active
    fuel opSeq coord st0

/-! InitByArgs, transaction.cc lines 143-293, modelled for a freshly
constructed transaction (every slot still holds its defaults, as in cases
a and b of the comment at lines 123-141).  The scatter loop at lines
207-223 appends, for each key position i (taken from key_index.start with
stride step), the pair (args[i], i-1) to the bucket of the shard the
router picks for the key, followed by (args[i+1], i) when step is 2; a
bucket therefore equals the filtered enumeration below, in the same
order.  The multi lock recording of lines 199-227 only feeds UnlockMulti
and is passed to that embedding directly. -/

/-- ArgS(args, i). -/
def argAt (args : List String) (i : Nat) : String := args.getD i ""

/-- The key positions visited by the scatter loop: start, start+step, ...
strictly below iEnd.  Fuel bounds the iteration count; iEnd iterations
always suffice for step at least 1. -/
def keyIdxsGo (iEnd step : Nat) : Nat → Nat → List Nat
  | 0, _ => []
  | Nat.succ fuel, i => if i < iEnd then i :: keyIdxsGo iEnd step fuel (i + step) else []

def keyIdxs (start iEnd step : Nat) : List Nat := keyIdxsGo iEnd step iEnd start

/-- The (argument, original index) pairs the loop body pushes for key
position i: the key with caller index i-1, then for step 2 the paired
value with caller index i. -/
def entriesAt (args : List String) (step i : Nat) : List (String × Nat) :=
  (argAt args i, i - 1) :: (if step = 2 then [(argAt args (i + 1), i)] else [])

/-- shard_index[s] after the scatter loop. -/
def bucketAt (router : String → Nat) (args : List String) (start iEnd step s : Nat) :
    List (String × Nat) :=
  ((keyIdxs start iEnd step).filter (fun i => router (argAt args i) == s)).flatMap
    (entriesAt args step)

/-- The specification-side count: how many keys of the transaction the
router maps to shard s. -/
def numKeysRoutedTo (router : String → Nat) (args : List String)
    (start iEnd step s : Nat) : Nat :=
  ((keyIdxs start iEnd step).filter (fun i => router (argAt args i) == s)).length

/-- sd.arg_start of shard s: the summed sizes of the buckets before s. -/
def argStartAt (router : String → Nat) (args : List String)
    (start iEnd step s : Nat) : Nat :=
  (((List.range s).map (fun r => (bucketAt router args start iEnd step r).length)).sum)

structure TxInit where
  shard_data : List PerShardData
  packedArgs : List String
  reverse_index : List Nat
  unique_shard_cnt : Nat
  unique_shard_id : Nat

def sentinelSD : PerShardData := ⟨-1, -1, none, 0⟩

def initByArgs (global multi : Bool) (router : String → Nat) (numShards : Nat)
    (args : List String) (start iEnd step : Nat) : TxInit :=
  if global then
    -- lines 146-150
    ⟨List.replicate numShards defaultSD, [], [], numShards, 0⟩
  else if start = args.length then
    -- lines 158-161: zero-key scripted command
    ⟨[], [], [], 0, 0⟩
  else if !multi && start + step ≥ iEnd then
    -- lines 169-182: single-key fast path
    ⟨[defaultSD], (List.range step).map (fun j => argAt args (start + j)), [],
      1, router (argAt args start)⟩
  else
    -- lines 184-292: the general scatter and pack path
    let bAt := bucketAt router args start iEnd step
    let sd := (List.range numShards).map (fun s =>
      (⟨(argStartAt router args start iEnd step s : Int), ((bAt s).length : Int),
        none, 0⟩ : PerShardData))
    let packed := (List.range numShards).flatMap (fun s => (bAt s).map Prod.fst)
    let rev := (List.range numShards).flatMap (fun s => (bAt s).map Prod.snd)
    let nonEmpty := (List.range numShards).filter (fun s => !(bAt s).isEmpty)
    let cnt := nonEmpty.length
    let uid := (nonEmpty.getLast?).getD 0
    let sdFinal :=
      if cnt = 1 then (if multi then sd.set uid sentinelSD else [sentinelSD]) else sd
    ⟨sdFinal, packed, rev, cnt, uid⟩

/-- ReverseArgIndex, transaction.cc lines 973-978. -/
def reverseArgIndex (tx : TxInit) (shard j : Nat) : Nat :=
  if tx.unique_shard_cnt = 1 then j
  else tx.reverse_index.getD ((tx.shard_data.getD shard defaultSD).arg_start.toNat + j) 0

/-! Concrete instances used by witnesses and counterexamples. -/

/-- A shard holding txid 7 in its queue whose only lock is exclusively
held by someone else: scheduling txid 5 on it must roll back. -/
def c2Shard : EngineShard := ⟨1, [7], fun _ => (0, 1), (0, 0), []⟩

def c1St : SchedState := ⟨fun _ => defaultShard, fun _ => defaultSD⟩

def c1Run : Option SchedOut :=
  scheduleInternal false .exclusive (fun _ => ["a"]) 1 1 [0] 1 1
    COORD_EXEC_CONCLUDING c1St

def c1Out : SchedOut := c1Run.getD ⟨0, 0, 0, c1St, []⟩

def c5Router : String → Nat := fun k => if k == "a" then 0 else 1

def c5Locks : List (String × Nat × Nat) := [("a", 0, 2), ("b", 0, 1)]

def c5Shards : Nat → EngineShard := fun i =>
  if i = 0 then ⟨0, [9], fun _ => (0, 2), (0, 0), []⟩
  else ⟨0, [], fun _ => (0, 1), (0, 0), []⟩

def c5Sds : Nat → PerShardData := fun i =>
  if i = 0 then ⟨0, 1, some 0, 0⟩ else defaultSD

def c5Run : UnlockMultiOut := unlockMulti false c5Locks c5Router 2 c5Shards c5Sds

def c7Shards : Nat → EngineShard := fun _ => ⟨0, [], fun _ => (1, 0), (0, 0), []⟩

def c7Sds : Nat → PerShardData := fun _ =>
  ⟨0, 0, none, SUSPENDED_Q ||| KEYLOCK_ACQUIRED⟩

def c7Run : WaitOnWatchOut :=
  waitOnWatch true (COORD_EXEC ||| COORD_BLOCKED) 1 0 .shared (fun _ => ["q"])
    c7Shards c7Sds

def c3Args : List String := ["MSET", "k1", "v1", "k2", "v2"]

def c3Router : String → Nat := fun k => if k == "k1" then 0 else 1

/-- MSET k1 v1 k2 v2 with k1 and k2 on different shards of two. -/
def c3Tx : TxInit := initByArgs false false c3Router 2 c3Args 1 5 2

def c8Args : List String := ["MGET", "a", "b"]

/-- MGET a b on a one-shard system: the general path ends with
unique_shard_cnt 1 and the sentinel slot. -/
def c8Tx : TxInit := initByArgs false false (fun _ => 0) 1 c8Args 1 3 1

/-! Bit arithmetic toolkit. -/

theorem lor_land_self (m f : Nat) : (m ||| f) &&& f = f := by
  apply Nat.eq_of_testBit_eq
  intro i
  rw [Nat.testBit_and, Nat.testBit_or]
  cases m.testBit i <;> cases f.testBit i <;> rfl

theorem land_absorb (m a b : Nat) (h : a &&& b = 0) : (m &&& a) &&& b = 0 := by
  rw [Nat.land_assoc, h, Nat.and_zero]

theorem land_filter (m a b : Nat) (h : a &&& b = b) : (m &&& a) &&& b = m &&& b := by
  rw [Nat.land_assoc, h]

theorem lor_land_disj (m f g : Nat) (h : f &&& g = 0) : (m ||| f) &&& g = m &&& g := by
  apply Nat.eq_of_testBit_eq
  intro i
  have hb : (f &&& g).testBit i = false := by rw [h]; exact Nat.zero_testBit i
  rw [Nat.testBit_and] at hb
  rw [Nat.testBit_and, Nat.testBit_or, Nat.testBit_and]
  cases hm : m.testBit i <;> cases hf : f.testBit i <;> cases hg : g.testBit i <;>
    simp_all

theorem maskClear_land_self (m f : Nat) (h : (65535 ^^^ f) &&& f = 0) :
    maskClear m f &&& f = 0 :=
  land_absorb m (65535 ^^^ f) f h

theorem maskClear_land_other (m f g : Nat) (h : (65535 ^^^ f) &&& g = g) :
    maskClear m f &&& g = m &&& g :=
  land_filter m (65535 ^^^ f) g h

/-! Lock table lemmas: release is the exact inverse of acquire. -/

theorem lockDec_lockInc (m : IntentMode) (c : LockCnt) :
    lockDec m (lockInc m c) = c := by
  cases m <;> simp [lockInc, lockDec]

theorem iterate_dec_inc (m : IntentMode) (n : Nat) (c : LockCnt) :
    (lockDec m)^[n] ((lockInc m)^[n] c) = c := by
  induction n generalizing c with
  | zero => rfl
  | succ n ih =>
    rw [Function.iterate_succ_apply' (lockInc m), Function.iterate_succ_apply (lockDec m),
      lockDec_lockInc]
    exact ih c

theorem foldUpd_apply (f : LockCnt → LockCnt) (keys : List String) :
    ∀ (t : LockTable) (k : String),
      (keys.foldl (fun acc k2 => tableUpd acc k2 f) t) k = f^[keys.count k] (t k) := by
  induction keys with
  | nil => intro t k; rfl
  | cons k0 ks ih =>
    intro t k
    rw [List.foldl_cons, ih, List.count_cons]
    by_cases hk : k0 = k
    · subst hk
      simp [tableUpd, Function.iterate_succ_apply]
    · have hb : (k0 == k) = false := by simp [hk]
      have hk2 : ¬k = k0 := fun hh => hk hh.symm
      simp [tableUpd, hb, hk2]

theorem acquireKeys_fst (m : IntentMode) (keys : List String) :
    ∀ (t : LockTable) (b : Bool),
      (keys.foldl
        (fun acc k => (tableUpd acc.1 k (lockInc m), acc.2 && lockFree m (acc.1 k)))
        (t, b)).1
      = keys.foldl (fun acc k => tableUpd acc k (lockInc m)) t := by
  induction keys with
  | nil => intro t b; rfl
  | cons k0 ks ih => intro t b; rw [List.foldl_cons, List.foldl_cons]; exact ih _ _

theorem releaseKeys_acquireKeys (m : IntentMode) (keys : List String) (t : LockTable) :
    releaseKeys m keys (acquireKeys m keys t).1 = t := by
  funext k
  rw [show (acquireKeys m keys t).1 = keys.foldl (fun acc k2 => tableUpd acc k2 (lockInc m)) t
      from acquireKeys_fst m keys t true]
  unfold releaseKeys
  rw [foldUpd_apply, foldUpd_apply]
  exact iterate_dec_inc m _ (t k)

/-! Claim C10. -/

theorem scheduleInternalGo_opSeq_le (global single_hop : Bool) (mode : IntentMode)
    (argsOf : Nat → List String) (sdSize numShards : Nat) (active : List Nat) :
    ∀ (fuel opSeq coord : Nat) (st : SchedState) (out : SchedOut),
      scheduleInternalGo global single_hop mode argsOf sdSize numShards active
        fuel opSeq coord st = some out → opSeq ≤ out.txid := by
  intro fuel
  induction fuel with
  | zero => intro opSeq coord st out h; exact absurd h (by simp [scheduleInternalGo])
  | succ fuel ih =>
    intro opSeq coord st out h
    rw [scheduleInternalGo] at h
    by_cases hs : ((schedRound opSeq global mode argsOf sdSize active st).2.countP
        (fun p => p.1)) = numShards
    · rw [if_pos hs] at h
      cases h
      exact Nat.le_refl _
    · rw [if_neg hs] at h
      exact Nat.le_of_succ_le (ih (opSeq + 1) coord _ out h)

/-- Claim C10: op_seq starts at 1 and every txid is handed out by a
fetch_add of 1, so txids are strictly positive and strictly increasing in
allocation order; the eager path of ScheduleUniqueShard leaves txid at 0
while its queued path and ScheduleInternal always assign a positive txid,
which makes 0 a sound sentinel for a transaction that was never
scheduled. -/
theorem c10_txid_allocation :
    (∀ n, 0 < txidAt n) ∧
    (∀ n m, n < m → txidAt n < txidAt m) ∧
    (∀ n, txidAt n ≠ 0) ∧
    (∀ (n : Nat) (mode : IntentMode) (lockArgs : List String) (shard : EngineShard)
      (sd : PerShardData),
      ((scheduleUniqueShard (txidAt n) mode lockArgs shard sd).eager = true →
        (scheduleUniqueShard (txidAt n) mode lockArgs shard sd).txid = 0) ∧
      ((scheduleUniqueShard (txidAt n) mode lockArgs shard sd).eager = false →
        (scheduleUniqueShard (txidAt n) mode lockArgs shard sd).txid = txidAt n ∧
        0 < (scheduleUniqueShard (txidAt n) mode lockArgs shard sd).txid)) ∧
    (∀ (global : Bool) (mode : IntentMode) (argsOf : Nat → List String)
      (sdSize numShards : Nat) (active : List Nat) (fuel n coord : Nat)
      (st : SchedState) (out : SchedOut),
      scheduleInternal global mode argsOf sdSize numShards active fuel (txidAt n)
        coord st = some out → 0 < out.txid) := by
  have hpos : ∀ n, 0 < txidAt n := by
    intro n; show 0 < opSeqInit + n; unfold opSeqInit; omega
  refine ⟨hpos, fun n m h => by
      show opSeqInit + n < opSeqInit + m; unfold opSeqInit; omega,
    fun n => Nat.pos_iff_ne_zero.mp (hpos n), ?_, ?_⟩
  · intro n mode lockArgs shard sd
    by_cases hc : checkKeys mode lockArgs shard.locks
    · constructor
      · intro _; simp [scheduleUniqueShard, hc]
      · intro hfalse
        exact absurd hfalse (by simp [scheduleUniqueShard, hc])
    · constructor
      · intro htrue
        exact absurd htrue (by simp [scheduleUniqueShard, hc])
      · intro _
        refine ⟨by simp [scheduleUniqueShard, hc], ?_⟩
        rw [show (scheduleUniqueShard (txidAt n) mode lockArgs shard sd).txid = txidAt n
          from by simp [scheduleUniqueShard, hc]]
        exact hpos n
  · intro global mode argsOf sdSize numShards active fuel n coord st out h
    have hle := scheduleInternalGo_opSeq_le global _ mode argsOf sdSize numShards active
      fuel (txidAt n) coord _ out h
    exact Nat.lt_of_lt_of_le (hpos n) hle

/-! Claim C6: the source aborts on the entry CHECK before its own
AWAKED_Q branch can run. -/

/-- Claim C6: on a slot with SUSPENDED_Q the call behaves as the claim
says (EXPIRED_Q gives false, otherwise SUSPENDED_Q flips to AWAKED_Q,
notify_txid is lowered to the minimum and the condition variable is
notified exactly when committed_txid is smaller, returning true); but a
repeat call on a slot holding only AWAKED_Q hits the entry
CHECK_NE(0, local_mask & SUSPENDED_Q) and aborts instead of returning
true, so the AWAKED_Q branch of the source is dead code. -/
theorem c6_notify_suspended_dead_branch :
    notifySuspended 42 100 AWAKED_Q = none ∧
    notifySuspended 42 100 SUSPENDED_Q = some (AWAKED_Q, 42, true, true) ∧
    notifySuspended 7 3 SUSPENDED_Q = some (AWAKED_Q, 3, false, true) ∧
    notifySuspended 42 100 (SUSPENDED_Q ||| EXPIRED_Q)
      = some (SUSPENDED_Q ||| EXPIRED_Q, 100, false, false) := by
  refine ⟨rfl, ?_, ?_, rfl⟩ <;> decide

/-! Claim C9. -/

theorem kQueueMask_facts (m : Nat) (h : m < 64) :
    (m &&& kQueueMask = 0 ↔ m &&& (SUSPENDED_Q ||| AWAKED_Q ||| EXPIRED_Q) = 0) ∧
    ((m &&& kQueueMask) &&& SUSPENDED_Q = m &&& SUSPENDED_Q) ∧
    ((m &&& kQueueMask) &&& AWAKED_Q = m &&& AWAKED_Q) ∧
    ((m &&& kQueueMask) &&& EXPIRED_Q = m &&& EXPIRED_Q) ∧
    ((m &&& kQueueMask) &&& (ARMED ||| KEYLOCK_ACQUIRED ||| OUT_OF_ORDER) = 0) := by
  interval_cases m <;> decide

/-- Claim C9 counterexample: on a slot whose local_mask is exactly
SUSPENDED_Q the callback returns true but the mask keeps SUSPENDED_Q set
(the uint16 constant -SUSPENDED_Q | AWAKED_Q | EXPIRED_Q has the
SUSPENDED_Q bit), contradicting the claim that SUSPENDED_Q is cleared. -/
theorem c9_remove_watched_counterexample :
    (removeFromWatchedShardCb 7 [] defaultShard SUSPENDED_Q).removed = true ∧
    (removeFromWatchedShardCb 7 [] defaultShard SUSPENDED_Q).local_mask = SUSPENDED_Q ∧
    ¬((removeFromWatchedShardCb 7 [] defaultShard SUSPENDED_Q).local_mask
        &&& SUSPENDED_Q = 0) := by
  refine ⟨rfl, ?_, ?_⟩ <;> decide

/-- Claim C9 amended: RemoveFromWatchedShardCb returns false and changes
nothing when none of SUSPENDED_Q, AWAKED_Q, EXPIRED_Q is set; otherwise
it unregisters the keys from the watch table and masks local_mask with
the uint16 constant -SUSPENDED_Q | AWAKED_Q | EXPIRED_Q, which preserves
SUSPENDED_Q, AWAKED_Q and EXPIRED_Q and clears ARMED, KEYLOCK_ACQUIRED
and OUT_OF_ORDER, then returns true. -/
theorem c9_remove_watched_amended (mask : Nat) (h : mask < 64) (tx : TxId)
    (args : List String) (shard : EngineShard) :
    (mask &&& (SUSPENDED_Q ||| AWAKED_Q ||| EXPIRED_Q) = 0 →
      removeFromWatchedShardCb tx args shard mask = ⟨shard, mask, false⟩) ∧
    (mask &&& (SUSPENDED_Q ||| AWAKED_Q ||| EXPIRED_Q) ≠ 0 →
      (removeFromWatchedShardCb tx args shard mask).removed = true ∧
      (removeFromWatchedShardCb tx args shard mask).local_mask &&& SUSPENDED_Q
        = mask &&& SUSPENDED_Q ∧
      (removeFromWatchedShardCb tx args shard mask).local_mask &&& AWAKED_Q
        = mask &&& AWAKED_Q ∧
      (removeFromWatchedShardCb tx args shard mask).local_mask &&& EXPIRED_Q
        = mask &&& EXPIRED_Q ∧
      (removeFromWatchedShardCb tx args shard mask).local_mask
        &&& (ARMED ||| KEYLOCK_ACQUIRED ||| OUT_OF_ORDER) = 0 ∧
      (removeFromWatchedShardCb tx args shard mask).shard.watches
        = args.foldl (removedWatched tx) shard.watches) := by
  obtain ⟨hiff, hs, ha, he, hlow⟩ := kQueueMask_facts mask h
  constructor
  · intro h0
    have hz : mask &&& kQueueMask = 0 := hiff.mpr h0
    simp [removeFromWatchedShardCb, hz]
  · intro h0
    have hz : ¬(mask &&& kQueueMask = 0) := fun hc => h0 (hiff.mp hc)
    have hred : removeFromWatchedShardCb tx args shard mask =
        ⟨{ shard with watches := args.foldl (removedWatched tx) shard.watches },
          mask &&& kQueueMask, true⟩ := by
      simp [removeFromWatchedShardCb, hz]
    rw [hred]
    exact ⟨rfl, hs, ha, he, hlow, rfl⟩

theorem c9_remove_watched_amended_witness :
    (removeFromWatchedShardCb 3 ["q"] defaultShard
      (SUSPENDED_Q ||| KEYLOCK_ACQUIRED)).local_mask &&& SUSPENDED_Q
      = (SUSPENDED_Q ||| KEYLOCK_ACQUIRED) &&& SUSPENDED_Q ∧
    (removeFromWatchedShardCb 3 ["q"] defaultShard
      (SUSPENDED_Q ||| KEYLOCK_ACQUIRED)).local_mask
      &&& (ARMED ||| KEYLOCK_ACQUIRED ||| OUT_OF_ORDER) = 0 := by
  have h := c9_remove_watched_amended (SUSPENDED_Q ||| KEYLOCK_ACQUIRED) (by decide)
    3 ["q"] defaultShard
  have h2 := h.2 (by decide)
  exact ⟨h2.2.1, h2.2.2.2.2.1⟩

/-! Claim C2. -/

/-- Claim C2: ScheduleInShard fails with (false, false) both when the
committed txid of the shard has already reached txid and when the queue
is non-empty, the lock was not granted and the tail score is not below
txid; on every failure the intent locks taken during the attempt are
released and KEYLOCK_ACQUIRED is clear, so the shard (its lock table and
its transaction queue included) is left exactly as it was. -/
theorem c2_schedule_in_shard_failure (txid : TxId) (global : Bool)
    (mode : IntentMode) (lockArgs : List String) (shard : EngineShard)
    (sd : PerShardData)
    (hK : sd.local_mask &&& KEYLOCK_ACQUIRED = 0)
    (hfail : txid ≤ shard.committed_txid ∨
      (shard.txq ≠ [] ∧ lockGrantedCalc global mode lockArgs shard = false ∧
        txid ≤ tailScore shard.txq)) :
    (scheduleInShard txid global mode lockArgs shard sd).scheduled = false ∧
    (scheduleInShard txid global mode lockArgs shard sd).lock_granted = false ∧
    (scheduleInShard txid global mode lockArgs shard sd).shard = shard ∧
    (scheduleInShard txid global mode lockArgs shard sd).sd.pq_pos = sd.pq_pos ∧
    (scheduleInShard txid global mode lockArgs shard sd).sd.local_mask
      &&& KEYLOCK_ACQUIRED = 0 := by
  by_cases hc : txid ≤ shard.committed_txid
  · simp only [scheduleInShard, if_pos hc]
    exact ⟨trivial, trivial, trivial, trivial, hK⟩
  · rcases hfail with h | ⟨hne, hg, htail⟩
    · exact absurd h hc
    · have hlt : ¬(tailScore shard.txq < txid) := Nat.not_lt.mpr htail
      have hrel := releaseKeys_acquireKeys mode lockArgs shard.locks
      -- the rollback branch of lines 911-918
      cases global with
      | true =>
        have hstep : scheduleInShard txid true mode lockArgs shard sd =
            ⟨shard, { sd with local_mask := maskClear sd.local_mask KEYLOCK_ACQUIRED },
              false, false⟩ := by
          simp [scheduleInShard, hc, hg, hne, hlt, hK]
        rw [hstep]
        exact ⟨rfl, rfl, rfl, rfl,
          maskClear_land_self sd.local_mask KEYLOCK_ACQUIRED (by decide)⟩
      | false =>
        have hKset : ((sd.local_mask ||| KEYLOCK_ACQUIRED) &&& KEYLOCK_ACQUIRED) ≠ 0 := by
          rw [lor_land_self]; decide
        have hstep : scheduleInShard txid false mode lockArgs shard sd =
            ⟨{ shard with
                locks := releaseKeys mode lockArgs (acquireKeys mode lockArgs shard.locks).1 },
              { sd with
                local_mask := maskClear (sd.local_mask ||| KEYLOCK_ACQUIRED) KEYLOCK_ACQUIRED },
              false, false⟩ := by
          simp [scheduleInShard, hc, hg, hne, hlt, hKset]
        rw [hstep]
        refine ⟨rfl, rfl, ?_, rfl,
          maskClear_land_self _ KEYLOCK_ACQUIRED (by decide)⟩
        rw [hrel]

theorem c2_schedule_in_shard_failure_witness :
    (scheduleInShard 5 false .exclusive ["a"] c2Shard defaultSD).scheduled = false ∧
    (scheduleInShard 5 false .exclusive ["a"] c2Shard defaultSD).lock_granted = false ∧
    (scheduleInShard 5 false .exclusive ["a"] c2Shard defaultSD).shard = c2Shard := by
  have h := c2_schedule_in_shard_failure 5 false .exclusive ["a"] c2Shard defaultSD
    (by decide) (Or.inr ⟨by decide, by decide, by decide⟩)
  exact ⟨h.1, h.2.1, h.2.2.1⟩

/-! Claim C4. -/

theorem maskClear_two_keylock (m : Nat) :
    maskClear (maskClear m KEYLOCK_ACQUIRED) OUT_OF_ORDER &&& KEYLOCK_ACQUIRED = 0 := by
  rw [maskClear_land_other _ OUT_OF_ORDER KEYLOCK_ACQUIRED (by decide)]
  exact maskClear_land_self m KEYLOCK_ACQUIRED (by decide)

/-- Claim C4: on a concluding hop (COORD_EXEC_CONCLUDING) of a non-multi,
non-global transaction, RunInShard releases the per-key locks and clears
KEYLOCK_ACQUIRED and OUT_OF_ORDER whenever the slot is not suspended
after the callback ran, while a slot with SUSPENDED_Q keeps the per-key
locks and its KEYLOCK_ACQUIRED bit unchanged (OUT_OF_ORDER is cleared in
both cases); either way the shard does not keep the transaction. -/
theorem c4_run_in_shard_concluding_release (incremental : Bool) (uniqueCnt : Nat)
    (mode : IntentMode) (lockArgs : List String) (cb : Runnable)
    (sd : PerShardData) (shard : EngineShard) :
    ((cb { sd with local_mask := maskClear sd.local_mask ARMED } shard).1.local_mask
        &&& SUSPENDED_Q = 0 →
      (runInShard true false incremental false uniqueCnt mode lockArgs cb sd
        shard).sd.local_mask &&& KEYLOCK_ACQUIRED = 0 ∧
      (runInShard true false incremental false uniqueCnt mode lockArgs cb sd
        shard).sd.local_mask &&& OUT_OF_ORDER = 0 ∧
      (runInShard true false incremental false uniqueCnt mode lockArgs cb sd
        shard).shard.locks = releaseKeys mode lockArgs
          (cb { sd with local_mask := maskClear sd.local_mask ARMED } shard).2.1.locks ∧
      (runInShard true false incremental false uniqueCnt mode lockArgs cb sd
        shard).keep = false) ∧
    ((cb { sd with local_mask := maskClear sd.local_mask ARMED } shard).1.local_mask
        &&& SUSPENDED_Q ≠ 0 →
      (runInShard true false incremental false uniqueCnt mode lockArgs cb sd
        shard).sd.local_mask &&& KEYLOCK_ACQUIRED =
        (cb { sd with local_mask := maskClear sd.local_mask ARMED } shard).1.local_mask
          &&& KEYLOCK_ACQUIRED ∧
      (runInShard true false incremental false uniqueCnt mode lockArgs cb sd
        shard).sd.local_mask &&& OUT_OF_ORDER = 0 ∧
      (runInShard true false incremental false uniqueCnt mode lockArgs cb sd
        shard).shard.locks =
        (cb { sd with local_mask := maskClear sd.local_mask ARMED } shard).2.1.locks ∧
      (runInShard true false incremental false uniqueCnt mode lockArgs cb sd
        shard).keep = false) := by
  constructor
  · intro hsusp
    cases hpq : (cb { sd with local_mask := maskClear sd.local_mask ARMED } shard).1.pq_pos with
    | none =>
      refine ⟨?_, ?_, ?_, ?_⟩ <;>
        simp [runInShard, hpq, hsusp, maskClear_two_keylock,
          maskClear_land_self _ OUT_OF_ORDER (by decide)]
    | some p =>
      refine ⟨?_, ?_, ?_, ?_⟩ <;>
        simp [runInShard, hpq, hsusp, maskClear_two_keylock,
          maskClear_land_self _ OUT_OF_ORDER (by decide)]
  · intro hsusp
    cases hpq : (cb { sd with local_mask := maskClear sd.local_mask ARMED } shard).1.pq_pos with
    | none =>
      refine ⟨?_, ?_, ?_, ?_⟩ <;>
        simp [runInShard, hpq, hsusp, maskClear_land_other _ OUT_OF_ORDER KEYLOCK_ACQUIRED
          (by decide), maskClear_land_self _ OUT_OF_ORDER (by decide)]
    | some p =>
      refine ⟨?_, ?_, ?_, ?_⟩ <;>
        simp [runInShard, hpq, hsusp, maskClear_land_other _ OUT_OF_ORDER KEYLOCK_ACQUIRED
          (by decide), maskClear_land_self _ OUT_OF_ORDER (by decide)]

/-! Claim C7. -/

/-- Claim C7: when the wait of WaitOnWatch ends by timeout or with
COORD_CANCELLED set, ExpireBlocking runs: on every touched shard the
per-key locks are released, EXPIRED_Q is set and KEYLOCK_ACQUIRED is
cleared in the slot; COORD_BLOCKED is cleared and the call returns the
boolean false (the only signal of timeout or cancellation). -/
theorem c7_wait_on_watch_expire (timedOut : Bool) (coord uniqueCnt uniqueId : Nat)
    (mode : IntentMode) (argsOf : Nat → List String) (shards : Nat → EngineShard)
    (sds : Nat → PerShardData)
    (h : coord &&& COORD_CANCELLED ≠ 0 ∨ timedOut = true) :
    (waitOnWatch timedOut coord uniqueCnt uniqueId mode argsOf shards sds).result
      = false ∧
    (waitOnWatch timedOut coord uniqueCnt uniqueId mode argsOf shards sds).coordinator_state
      &&& COORD_BLOCKED = 0 ∧
    (uniqueCnt = 1 →
      ((waitOnWatch timedOut coord uniqueCnt uniqueId mode argsOf shards sds).sds 0).local_mask
        &&& EXPIRED_Q ≠ 0 ∧
      ((waitOnWatch timedOut coord uniqueCnt uniqueId mode argsOf shards sds).sds 0).local_mask
        &&& KEYLOCK_ACQUIRED = 0 ∧
      ((waitOnWatch timedOut coord uniqueCnt uniqueId mode argsOf shards sds).shards
        uniqueId).locks = releaseKeys mode (argsOf uniqueId) (shards uniqueId).locks) ∧
    (uniqueCnt ≠ 1 → ∀ i, (sds i).arg_count ≠ 0 →
      ((waitOnWatch timedOut coord uniqueCnt uniqueId mode argsOf shards sds).sds i).local_mask
        &&& EXPIRED_Q ≠ 0 ∧
      ((waitOnWatch timedOut coord uniqueCnt uniqueId mode argsOf shards sds).sds i).local_mask
        &&& KEYLOCK_ACQUIRED = 0 ∧
      ((waitOnWatch timedOut coord uniqueCnt uniqueId mode argsOf shards sds).shards i).locks
        = releaseKeys mode (argsOf i) (shards i).locks) := by
  have hcond : (coord &&& COORD_CANCELLED ≠ 0) ∨ timedOut = true := h
  have hexp : ∀ m : Nat, maskClear (m ||| EXPIRED_Q) KEYLOCK_ACQUIRED &&& EXPIRED_Q ≠ 0 := by
    intro m
    rw [maskClear_land_other _ KEYLOCK_ACQUIRED EXPIRED_Q (by decide), lor_land_self]
    decide
  have hkey : ∀ m : Nat, maskClear (m ||| EXPIRED_Q) KEYLOCK_ACQUIRED
      &&& KEYLOCK_ACQUIRED = 0 := fun m =>
    maskClear_land_self _ KEYLOCK_ACQUIRED (by decide)
  have hblocked : maskClear coord COORD_BLOCKED &&& COORD_BLOCKED = 0 :=
    maskClear_land_self coord COORD_BLOCKED (by decide)
  rcases hcond with hcanc | htime
  · refine ⟨?_, ?_, ?_, ?_⟩
    · simp [waitOnWatch, hcanc]
    · simp [waitOnWatch, hcanc, hblocked]
    · intro h1
      refine ⟨?_, ?_, ?_⟩ <;>
        simp [waitOnWatch, hcanc, expireBlocking, expireShardCb, h1, hexp, hkey]
    · intro h1 i hi
      refine ⟨?_, ?_, ?_⟩ <;>
        simp [waitOnWatch, hcanc, expireBlocking, expireShardCb, h1, hi, hexp, hkey]
  · refine ⟨?_, ?_, ?_, ?_⟩
    · simp [waitOnWatch, htime]
    · simp [waitOnWatch, htime, hblocked]
    · intro h1
      refine ⟨?_, ?_, ?_⟩ <;>
        simp [waitOnWatch, htime, expireBlocking, expireShardCb, h1, hexp, hkey]
    · intro h1 i hi
      refine ⟨?_, ?_, ?_⟩ <;>
        simp [waitOnWatch, htime, expireBlocking, expireShardCb, h1, hi, hexp, hkey]

theorem c7_wait_on_watch_expire_witness :
    c7Run.result = false ∧
    c7Run.coordinator_state &&& COORD_BLOCKED = 0 ∧
    (c7Run.sds 0).local_mask &&& EXPIRED_Q ≠ 0 ∧
    (c7Run.sds 0).local_mask &&& KEYLOCK_ACQUIRED = 0 ∧
    (c7Run.shards 0).locks = releaseKeys .shared ["q"] (c7Shards 0).locks := by
  have h := c7_wait_on_watch_expire true (COORD_EXEC ||| COORD_BLOCKED) 1 0 .shared
    (fun _ => ["q"]) c7Shards c7Sds (Or.inr rfl)
  have h1 := h.2.2.1 rfl
  exact ⟨h.1, h.2.1, h1.1, h1.2.1, h1.2.2⟩

/-! Claim C5. -/

theorem releaseCnt_self (k : String) (c : Nat × Nat) (t : LockTable) :
    releaseCnt k c t k = ((t k).1 - (c.1 : Int), (t k).2 - (c.2 : Int)) := by
  by_cases h1 : c.1 = 0 <;> by_cases h2 : c.2 = 0 <;>
    simp [releaseCnt, tableUpd, h1, h2]

theorem releaseCnt_ne (k k2 : String) (c : Nat × Nat) (t : LockTable)
    (hne : k2 ≠ k) : releaseCnt k c t k2 = t k2 := by
  by_cases h1 : c.1 = 0 <;> by_cases h2 : c.2 = 0 <;>
    simp [releaseCnt, tableUpd, h1, h2, hne]

theorem releaseFold_not_mem (L : List (String × Nat × Nat)) :
    ∀ (t : LockTable) (k : String), (∀ kv ∈ L, kv.1 ≠ k) →
      (L.foldl (fun t2 kv => releaseCnt kv.1 kv.2 t2) t) k = t k := by
  induction L with
  | nil => intro t k _; rfl
  | cons kv L ih =>
    intro t k hall
    rw [List.foldl_cons, ih _ k (fun e he => hall e (List.mem_cons_of_mem kv he))]
    exact releaseCnt_ne kv.1 k kv.2 t
      (fun he => hall kv (List.mem_cons_self kv L) he.symm)

theorem releaseFold_mem (L : List (String × Nat × Nat)) :
    ∀ (t : LockTable) (k : String) (c : Nat × Nat),
      (L.map Prod.fst).Nodup → (k, c) ∈ L →
      (L.foldl (fun t2 kv => releaseCnt kv.1 kv.2 t2) t) k
        = ((t k).1 - (c.1 : Int), (t k).2 - (c.2 : Int)) := by
  induction L with
  | nil => intro t k c _ hmem; cases hmem
  | cons kv L ih =>
    intro t k c hnd hmem
    rw [List.map_cons] at hnd
    have hnd2 := List.nodup_cons.mp hnd
    rw [List.foldl_cons]
    rcases List.mem_cons.mp hmem with heq | hmem2
    · have hk1 : kv.1 = k := by rw [← heq]
      have hk2 : kv.2 = c := by rw [← heq]
      rw [releaseFold_not_mem L _ k ?hall]
      case hall =>
        intro e he hek
        apply hnd2.1
        rw [hk1, ← hek]
        exact List.mem_map_of_mem Prod.fst he
      rw [hk1, hk2]
      exact releaseCnt_self k c t
    · have hne : k ≠ kv.1 := by
        intro hk
        apply hnd2.1
        rw [← hk]
        exact List.mem_map_of_mem Prod.fst hmem2
      rw [ih _ k c hnd2.2 hmem2, releaseCnt_ne kv.1 k kv.2 t hne]

/-- Claim C5: after UnlockMulti, every key recorded in multi.locks has
its recorded shared and exclusive counts released on the shard the
router maps it to, the whole-shard exclusive lock is released on every
shard when the multi options contain GLOBAL_TRANS, every slot ends with
pq_pos at kEnd, and a residual queue entry (which sits at the queue
front) is popped. -/
theorem c5_unlock_multi_release (global : Bool)
    (locks : List (String × Nat × Nat)) (router : String → Nat) (numShards : Nat)
    (txid : TxId) (shards : Nat → EngineShard) (sds : Nat → PerShardData)
    (hnd : (locks.map Prod.fst).Nodup)
    (hhead : ∀ i, i < numShards → (sds i).pq_pos ≠ none →
      (shards i).txq.head? = some txid) :
    (∀ i, i < numShards →
      ((unlockMulti global locks router numShards shards sds).sds i).pq_pos = none) ∧
    (∀ kv ∈ locks, router kv.1 < numShards →
      ((unlockMulti global locks router numShards shards sds).shards (router kv.1)).locks
          kv.1
        = (((shards (router kv.1)).locks kv.1).1 - (kv.2.1 : Int),
           ((shards (router kv.1)).locks kv.1).2 - (kv.2.2 : Int))) ∧
    (global = true → ∀ i, i < numShards →
      ((unlockMulti global locks router numShards shards sds).shards i).shard_lock
        = lockDec .exclusive (shards i).shard_lock) ∧
    (∀ i, i < numShards → (sds i).pq_pos ≠ none →
      (shards i).txq.head? = some txid ∧
      ((unlockMulti global locks router numShards shards sds).shards i).txq
        = (shards i).txq.tail) := by
  refine ⟨?_, ?_, ?_, ?_⟩
  · intro i hi
    cases hpq : (sds i).pq_pos with
    | none => simp [unlockMulti, unlockMultiCb, hi, hpq]
    | some p => simp [unlockMulti, unlockMultiCb, hi, hpq]
  · intro kv hkv hr
    have hmemf : kv ∈ locks.filter (fun e => router e.1 == router kv.1) :=
      List.mem_filter.mpr ⟨hkv, by simp⟩
    have hndf : ((locks.filter (fun e => router e.1 == router kv.1)).map Prod.fst).Nodup :=
      hnd.sublist ((List.filter_sublist locks).map Prod.fst)
    have hfold := releaseFold_mem (locks.filter (fun e => router e.1 == router kv.1))
      ((if global then
          { shards (router kv.1) with
            shard_lock := lockDec .exclusive (shards (router kv.1)).shard_lock }
        else shards (router kv.1)).locks) kv.1 kv.2 hndf
      (by rcases kv with ⟨k, c⟩; exact hmemf)
    cases hpq : (sds (router kv.1)).pq_pos with
    | none =>
      cases global <;>
        simpa [unlockMulti, unlockMultiCb, hr, hpq] using hfold
    | some p =>
      cases global <;>
        simpa [unlockMulti, unlockMultiCb, hr, hpq] using hfold
  · intro hg i hi
    subst hg
    cases hpq : (sds i).pq_pos with
    | none => simp [unlockMulti, unlockMultiCb, hi, hpq]
    | some p => simp [unlockMulti, unlockMultiCb, hi, hpq]
  · intro i hi hpqne
    refine ⟨hhead i hi hpqne, ?_⟩
    cases hpq : (sds i).pq_pos with
    | none => exact absurd hpq hpqne
    | some p =>
      cases global <;> simp [unlockMulti, unlockMultiCb, hi, hpq]

theorem c5_unlock_multi_release_witness :
    (c5Run.sds 0).pq_pos = none ∧
    (c5Run.sds 1).pq_pos = none ∧
    (c5Run.shards 0).locks "a" = ((0 : Int), (0 : Int)) ∧
    (c5Run.shards 1).locks "b" = ((0 : Int), (0 : Int)) ∧
    (c5Run.shards 0).txq = [] := by
  have h := c5_unlock_multi_release false c5Locks c5Router 2 9 c5Shards c5Sds
    (by decide) (by decide)
  refine ⟨h.1 0 (by decide), h.1 1 (by decide), ?_, ?_, ?_⟩
  · exact (h.2.1 ("a", 0, 2) (by decide) (by decide)).trans (by decide)
  · exact (h.2.1 ("b", 0, 1) (by decide) (by decide)).trans (by decide)
  · exact (h.2.2.2 0 (by decide) (by decide)).2.trans (by decide)

/-! Claim C1. -/

theorem scheduleInShard_global_lock_granted (txid : TxId) (mode : IntentMode)
    (la : List String) (shard : EngineShard) (sd : PerShardData) :
    (scheduleInShard txid true mode la shard sd).lock_granted = false := by
  by_cases h1 : txid ≤ shard.committed_txid
  · simp [scheduleInShard, h1]
  · by_cases h2 : shard.txq = []
    · simp [scheduleInShard, h1, h2, schedInsert, lockGrantedCalc]
    · by_cases h3 : tailScore shard.txq < txid
      · simp [scheduleInShard, h1, h2, h3, schedInsert, lockGrantedCalc]
      · simp [scheduleInShard, h1, h2, h3, schedInsert, lockGrantedCalc]

theorem schedRoundGo_length (txid : TxId) (global : Bool) (mode : IntentMode)
    (argsOf : Nat → List String) (sdSize : Nat) :
    ∀ (active : List Nat) (acc : SchedState × List (Bool × Bool)),
      ((active.foldl (schedRoundStep txid global mode argsOf sdSize) acc).2).length
        = acc.2.length + active.length := by
  intro active
  induction active with
  | nil => intro acc; simp
  | cons i rest ih =>
    intro acc
    rw [List.foldl_cons, ih]
    simp [schedRoundStep]
    omega

theorem schedRoundGo_global_false (txid : TxId) (mode : IntentMode)
    (argsOf : Nat → List String) (sdSize : Nat) :
    ∀ (active : List Nat) (acc : SchedState × List (Bool × Bool)),
      (∀ p ∈ acc.2, p.2 = false) →
      ∀ p ∈ (active.foldl (schedRoundStep txid true mode argsOf sdSize) acc).2,
        p.2 = false := by
  intro active
  induction active with
  | nil => intro acc h; exact h
  | cons i rest ih =>
    intro acc h
    rw [List.foldl_cons]
    apply ih
    intro p hp
    simp only [schedRoundStep] at hp
    rcases List.mem_append.mp hp with h1 | h2
    · exact h p h1
    · rw [List.mem_singleton.mp h2]
      exact scheduleInShard_global_lock_granted txid mode (argsOf i) _ _

theorem scheduleInternalGo_ooo (global single_hop : Bool) (mode : IntentMode)
    (argsOf : Nat → List String) (sdSize numShards : Nat) (active : List Nat)
    (hlen : active.length = numShards) (hpos : 0 < numShards) :
    ∀ (fuel opSeq coord : Nat) (st : SchedState) (out : SchedOut),
      coord &&& COORD_OOO = 0 →
      scheduleInternalGo global single_hop mode argsOf sdSize numShards active
        fuel opSeq coord st = some out →
      out.results.length = numShards ∧
      (out.coordinator_state &&& COORD_OOO ≠ 0 ↔
        (single_hop = true ∧ global = false ∧ ∀ p ∈ out.results, p.2 = true)) ∧
      (out.coordinator_state &&& COORD_OOO ≠ 0 →
        ∀ j, ((out.state.sds j).local_mask &&& OUT_OF_ORDER ≠ 0)) ∧
      out.coordinator_state &&& COORD_SCHED ≠ 0 := by
  intro fuel
  induction fuel with
  | zero => intro opSeq coord st out _ h; exact absurd h (by simp [scheduleInternalGo])
  | succ fuel ih =>
    intro opSeq coord st out hco h
    simp only [scheduleInternalGo] at h
    by_cases hsucc : ((schedRound opSeq global mode argsOf sdSize active st).2.countP
        (fun p => p.1)) = numShards
    · rw [if_pos hsucc] at h
      have hres : (schedRound opSeq global mode argsOf sdSize active st).2.length
          = numShards := by
        unfold schedRound
        rw [schedRoundGo_length]
        simpa using hlen
      injection h with h
      subst h
      by_cases hcond : (single_hop
          && ((schedRound opSeq global mode argsOf sdSize active st).2.countP
            (fun p => p.2) == numShards)) = true
      · rw [if_pos hcond]
        rw [Bool.and_eq_true] at hcond
        obtain ⟨hsh, hbeq⟩ := hcond
        have hcnt : (schedRound opSeq global mode argsOf sdSize active st).2.countP
            (fun p => p.2) = numShards := by simpa using hbeq
        have hall : ∀ p ∈ (schedRound opSeq global mode argsOf sdSize active st).2,
            p.2 = true := by
          apply List.countP_eq_length.mp
          rw [hcnt, hres]
        have hglobal : global = false := by
          cases hgl : global with
          | false => rfl
          | true =>
            exfalso
            have hallf : ∀ p ∈ (schedRound opSeq global mode argsOf sdSize active st).2,
                p.2 = false := by
              rw [hgl]
              exact schedRoundGo_global_false opSeq mode argsOf sdSize active _
                (by intro p hp; cases hp)
            obtain ⟨p, hp⟩ := List.exists_mem_of_length_pos (by rw [hres]; exact hpos)
            have := hall p hp
            have := hallf p hp
            simp_all
        have hOOO : ((coord ||| COORD_OOO) ||| COORD_SCHED) &&& COORD_OOO ≠ 0 := by
          rw [lor_land_disj _ COORD_SCHED COORD_OOO (by decide), lor_land_self]
          decide
        refine ⟨hres, ?_, ?_, ?_⟩
        · exact ⟨fun _ => ⟨hsh, hglobal, hall⟩, fun _ => hOOO⟩
        · intro _ j
          rw [if_pos hOOO]
          show (((schedRound opSeq global mode argsOf sdSize active st).1.sds j).local_mask
            ||| OUT_OF_ORDER) &&& OUT_OF_ORDER ≠ 0
          rw [lor_land_self]
          decide
        · rw [lor_land_self]
          decide
      · rw [if_neg hcond]
        have hnoOOO : (coord ||| COORD_SCHED) &&& COORD_OOO = 0 := by
          rw [lor_land_disj _ COORD_SCHED COORD_OOO (by decide)]
          exact hco
        refine ⟨hres, ?_, ?_, ?_⟩
        · constructor
          · intro hn; exact absurd hnoOOO hn
          · rintro ⟨hsh, hgl, hall⟩
            exfalso
            apply hcond
            rw [hsh, Bool.true_and]
            apply Nat.beq_eq_true_eq _ _ |>.mpr
            rw [← hres]
            exact List.countP_eq_length.mpr hall
        · intro hn; exact absurd hnoOOO hn
        · rw [lor_land_self]; decide
    · rw [if_neg hsucc] at h
      exact ih (opSeq + 1) coord _ out hco h

/-- Claim C1: ScheduleInternal sets COORD_OOO exactly when the
transaction is single-hop (COORD_EXEC_CONCLUDING was set when scheduling
began), is not global, and every active shard reported lock_granted on
the successful round; whenever COORD_OOO is set, every shard_data slot
receives the OUT_OF_ORDER bit before the call returns; COORD_SCHED is
always set on success. -/
theorem c1_schedule_internal_ooo (global : Bool) (mode : IntentMode)
    (argsOf : Nat → List String) (sdSize numShards : Nat) (active : List Nat)
    (fuel opSeq coord : Nat) (st : SchedState) (out : SchedOut)
    (hlen : active.length = numShards) (hpos : 0 < numShards)
    (hco : coord &&& COORD_OOO = 0)
    (hrun : scheduleInternal global mode argsOf sdSize numShards active fuel opSeq
      coord st = some out) :
    out.results.length = numShards ∧
    (out.coordinator_state &&& COORD_OOO ≠ 0 ↔
      (coord &&& COORD_EXEC_CONCLUDING ≠ 0 ∧ global = false ∧
        ∀ p ∈ out.results, p.2 = true)) ∧
    (out.coordinator_state &&& COORD_OOO ≠ 0 →
      ∀ j, ((out.state.sds j).local_mask &&& OUT_OF_ORDER ≠ 0)) ∧
    out.coordinator_state &&& COORD_SCHED ≠ 0 := by
  unfold scheduleInternal at hrun
  have h := scheduleInternalGo_ooo global
    (decide (coord &&& COORD_EXEC_CONCLUDING ≠ 0)) mode argsOf sdSize numShards
    active hlen hpos fuel opSeq coord _ out hco hrun
  refine ⟨h.1, ?_, h.2.2.1, h.2.2.2⟩
  rw [h.2.1]
  rw [show (decide (coord &&& COORD_EXEC_CONCLUDING ≠ 0) = true)
    ↔ coord &&& COORD_EXEC_CONCLUDING ≠ 0 from decide_eq_true_iff]

theorem c1_schedule_internal_ooo_witness :
    c1Out.coordinator_state &&& COORD_OOO ≠ 0 ∧
    (c1Out.state.sds 0).local_mask &&& OUT_OF_ORDER ≠ 0 ∧
    c1Out.coordinator_state &&& COORD_SCHED ≠ 0 ∧
    c1Out.results = [(true, true)] := by
  have h := c1_schedule_internal_ooo false .exclusive (fun _ => ["a"]) 1 1 [0] 1 1
    COORD_EXEC_CONCLUDING c1St c1Out rfl (by decide) (by decide) rfl
  have hOOO : c1Out.coordinator_state &&& COORD_OOO ≠ 0 :=
    h.2.1.mpr ⟨by decide, rfl, by decide⟩
  exact ⟨hOOO, h.2.2.1 hOOO 0, h.2.2.2, by decide⟩

/-! Claims C3 and C8: list lemmas about the scatter and pack loop. -/

theorem sum_map_const {α : Type} (l : List α) (c : Nat) :
    (l.map (fun _ => c)).sum = l.length * c := by
  induction l with
  | nil => simp
  | cons x l ih => simp [ih, Nat.succ_mul, Nat.add_comm]

theorem entriesAt_length (args : List String) (step i : Nat)
    (hstep : step = 1 ∨ step = 2) : (entriesAt args step i).length = step := by
  rcases hstep with h | h <;> subst h <;> simp [entriesAt]

theorem bucketAt_length (router : String → Nat) (args : List String)
    (start iEnd step s : Nat) (hstep : step = 1 ∨ step = 2) :
    (bucketAt router args start iEnd step s).length
      = step * numKeysRoutedTo router args start iEnd step s := by
  unfold bucketAt numKeysRoutedTo
  rw [List.length_flatMap]
  rw [List.map_congr_left
    (fun i _ => show (List.length ∘ entriesAt args step) i = (fun _ => step) i from
      entriesAt_length args step i hstep)]
  rw [sum_map_const, Nat.mul_comm]

theorem keyIdxsGo_ge (iEnd step : Nat) :
    ∀ (fuel i0 : Nat), ∀ i ∈ keyIdxsGo iEnd step fuel i0, i0 ≤ i := by
  intro fuel
  induction fuel with
  | zero => intro i0 i hi; cases hi
  | succ fuel ih =>
    intro i0 i hi
    unfold keyIdxsGo at hi
    by_cases hlt : i0 < iEnd
    · rw [if_pos hlt] at hi
      rcases List.mem_cons.mp hi with h | h
      · exact Nat.le_of_eq h.symm
      · exact Nat.le_trans (Nat.le_add_right i0 step) (ih (i0 + step) i h)
    · rw [if_neg hlt] at hi
      cases hi

theorem bucketAt_mem_fst (router : String → Nat) (args : List String)
    (start iEnd step s : Nat) (hstart : 1 ≤ start) :
    ∀ e ∈ bucketAt router args start iEnd step s, e.1 = argAt args (e.2 + 1) := by
  intro e he
  unfold bucketAt at he
  rcases List.mem_flatMap.mp he with ⟨i, hi, hei⟩
  have hif : i ∈ keyIdxs start iEnd step := (List.mem_filter.mp hi).1
  have hge : start ≤ i := keyIdxsGo_ge iEnd step iEnd start i hif
  have hi1 : 1 ≤ i := Nat.le_trans hstart hge
  unfold entriesAt at hei
  rcases List.mem_cons.mp hei with h | h
  · subst h
    show argAt args i = argAt args (i - 1 + 1)
    rw [Nat.sub_add_cancel hi1]
  · by_cases h2 : step = 2
    · rw [if_pos h2] at h
      rw [List.mem_singleton.mp h]
    · rw [if_neg h2] at h
      cases h

theorem flatMap_getD_block {α β : Type} (f : α → List β) (d : β) :
    ∀ (L1 : List α) (a : α) (L2 : List α) (j : Nat), j < (f a).length →
      ((L1 ++ a :: L2).flatMap f).getD
        ((L1.map (fun r => (f r).length)).sum + j) d = (f a).getD j d := by
  intro L1
  induction L1 with
  | nil =>
    intro a L2 j hj
    simp only [List.nil_append, List.flatMap_cons, List.map_nil, List.sum_nil,
      Nat.zero_add]
    exact List.getD_append _ _ d j hj
  | cons x L1 ih =>
    intro a L2 j hj
    simp only [List.cons_append, List.flatMap_cons, List.map_cons, List.sum_cons]
    rw [Nat.add_assoc]
    rw [List.getD_append_right _ _ d _ (Nat.le_add_right _ _)]
    rw [Nat.add_sub_cancel_left]
    exact ih a L2 j hj

theorem range_decomp (s n : Nat) (h : s < n) :
    List.range n = List.range s ++ s :: List.range' (s + 1) (n - s - 1) := by
  obtain ⟨m, rfl⟩ : ∃ m, n = s + m + 1 := ⟨n - s - 1, by omega⟩
  rw [show s + m + 1 - s - 1 = m from by omega]
  rw [List.range_eq_range', List.range_eq_range']
  rw [show s + m + 1 = (m + 1) + s from by omega]
  rw [← List.range'_append 0 s (m + 1) 1]
  congr 1
  rw [show 0 + 1 * s = s from by omega, List.range'_succ]

/-- The general scatter path of InitByArgs: the routing outputs as
explicit lists (the unique_shard_cnt, packedArgs and reverse_index
components are not affected by the single-shard sentinel rewrite). -/
theorem initByArgs_general_cnt (multi : Bool) (router : String → Nat)
    (args : List String) (numShards start iEnd step : Nat)
    (hstart : start ≠ args.length)
    (hsingle : multi = true ∨ start + step < iEnd) :
    (initByArgs false multi router numShards args start iEnd step).unique_shard_cnt
      = ((List.range numShards).filter
          (fun s => !(bucketAt router args start iEnd step s).isEmpty)).length ∧
    (initByArgs false multi router numShards args start iEnd step).packedArgs
      = (List.range numShards).flatMap
          (fun s => (bucketAt router args start iEnd step s).map Prod.fst) ∧
    (initByArgs false multi router numShards args start iEnd step).reverse_index
      = (List.range numShards).flatMap
          (fun s => (bucketAt router args start iEnd step s).map Prod.snd) := by
  have hc3 : (!multi && decide (start + step ≥ iEnd)) = false := by
    rcases hsingle with h | h
    · rw [h]; rfl
    · simp [Nat.not_le.mpr h]
  simp only [initByArgs, Bool.false_eq_true, if_false, if_neg hstart, hc3,
    Bool.false_eq_true, if_false]
  exact ⟨trivial, trivial, trivial⟩

/-- The shard_data component of the general path when more than one shard
is touched (so the sentinel rewrite of lines 272-282 does not fire). -/
theorem initByArgs_general_sd (multi : Bool) (router : String → Nat)
    (args : List String) (numShards start iEnd step : Nat)
    (hstart : start ≠ args.length)
    (hsingle : multi = true ∨ start + step < iEnd)
    (hcnt : ((List.range numShards).filter
        (fun s => !(bucketAt router args start iEnd step s).isEmpty)).length ≠ 1) :
    (initByArgs false multi router numShards args start iEnd step).shard_data
      = (List.range numShards).map (fun s =>
          (⟨(argStartAt router args start iEnd step s : Int),
            ((bucketAt router args start iEnd step s).length : Int),
            none, 0⟩ : PerShardData)) := by
  have hc3 : (!multi && decide (start + step ≥ iEnd)) = false := by
    rcases hsingle with h | h
    · rw [h]; rfl
    · simp [Nat.not_le.mpr h]
  simp only [initByArgs, Bool.false_eq_true, if_false, if_neg hstart, hc3,
    if_neg hcnt]

/-- Claim C3 counterexample: MSET k1 v1 k2 v2 (step 2) with k1 and k2 on
different shards ends with shard_data[0].arg_count = 2 (key plus paired
value) while the router maps exactly one key of the transaction to shard
0, refuting arg_count = number-of-keys as stated. -/
theorem c3_arg_count_counterexample :
    (c3Tx.shard_data.getD 0 defaultSD).arg_count = 2 ∧
    numKeysRoutedTo c3Router c3Args 1 5 2 0 = 1 ∧
    ¬((c3Tx.shard_data.getD 0 defaultSD).arg_count
      = ((numKeysRoutedTo c3Router c3Args 1 5 2 0 : Nat) : Int)) := by
  refine ⟨?_, ?_, ?_⟩ <;> decide

/-- Claim C3 amended: for a non-global transaction taking the general
scatter path (not the zero-key or single-key returns) that touches at
least two shards, shard_data[s].arg_count equals the number of arguments
routed to shard s, which is step times the number of keys the router
maps to s (values travel with their keys when step is 2); the
single-shard paths store the sentinel -1 instead. -/
theorem c3_arg_count_amended (multi : Bool) (router : String → Nat)
    (args : List String) (numShards start iEnd step s : Nat)
    (hstart : start ≠ args.length)
    (hsingle : multi = true ∨ start + step < iEnd)
    (hstep : step = 1 ∨ step = 2)
    (hs : s < numShards)
    (hcnt2 : 2 ≤ (initByArgs false multi router numShards args start
      iEnd step).unique_shard_cnt) :
    ((initByArgs false multi router numShards args start iEnd step).shard_data.getD
        s defaultSD).arg_count
      = ((step * numKeysRoutedTo router args start iEnd step s : Nat) : Int) := by
  obtain ⟨hcnt, _, _⟩ := initByArgs_general_cnt multi router args numShards start
    iEnd step hstart hsingle
  have hne1 : ((List.range numShards).filter
      (fun s2 => !(bucketAt router args start iEnd step s2).isEmpty)).length ≠ 1 := by
    rw [hcnt] at hcnt2; omega
  rw [initByArgs_general_sd multi router args numShards start iEnd step hstart
    hsingle hne1]
  have hlen : s < ((List.range numShards).map (fun s2 =>
      (⟨(argStartAt router args start iEnd step s2 : Int),
        ((bucketAt router args start iEnd step s2).length : Int),
        none, 0⟩ : PerShardData))).length := by
    rw [List.length_map, List.length_range]
    exact hs
  rw [List.getD_eq_getElem _ _ hlen, List.getElem_map, List.getElem_range]
  show ((bucketAt router args start iEnd step s).length : Int) = _
  rw [bucketAt_length router args start iEnd step s hstep]

theorem c3_arg_count_amended_witness :
    (c3Tx.shard_data.getD 0 defaultSD).arg_count
      = ((2 * numKeysRoutedTo c3Router c3Args 1 5 2 0 : Nat) : Int) ∧
    (c3Tx.shard_data.getD 1 defaultSD).arg_count
      = ((2 * numKeysRoutedTo c3Router c3Args 1 5 2 1 : Nat) : Int) := by
  have h0 := c3_arg_count_amended false c3Router c3Args 2 1 5 2 0
    (by decide) (Or.inr (by decide)) (Or.inr rfl) (by decide) (by decide)
  have h1 := c3_arg_count_amended false c3Router c3Args 2 1 5 2 1
    (by decide) (Or.inr (by decide)) (Or.inr rfl) (by decide) (by decide)
  exact ⟨h0, h1⟩

/-- Claim C8 counterexample: MGET a b on one shard takes the general path
and ends with unique_shard_cnt = 1 and the sentinel arg_start = -1; with
p = 0 and j = 1 the premise p = arg_start + j holds, the argument
packedArgs[0] = "a" has caller index 0 (reverse_index[0] = 0 and
args[0 + 1] = "a"), yet ReverseArgIndex(0, 1) takes the fast path and
returns 1, not the caller index 0. -/
theorem c8_reverse_arg_index_counterexample :
    c8Tx.unique_shard_cnt = 1 ∧
    (c8Tx.shard_data.getD 0 defaultSD).arg_start = -1 ∧
    (c8Tx.shard_data.getD 0 defaultSD).arg_start + (1 : Int) = 0 ∧
    c8Tx.packedArgs.getD 0 "" = "a" ∧
    c8Tx.reverse_index.getD 0 0 = 0 ∧
    argAt c8Args (0 + 1) = "a" ∧
    reverseArgIndex c8Tx 0 1 = 1 ∧
    (1 : Nat) ≠ 0 := by
  refine ⟨?_, ?_, ?_, ?_, ?_, ?_, ?_, ?_⟩ <;> decide

/-- Claim C8 amended: on the general scatter path with at least two
touched shards, ReverseArgIndex(s, j) looks up
reverse_index[arg_start + j] and the packed argument at position
arg_start + j is exactly the original argument at that caller index (the
round trip); when unique_shard_cnt = 1, ReverseArgIndex(s, j) returns j
itself, which coincides with the caller index only when the key range
starts at argument 1. -/
theorem c8_reverse_arg_index_amended (multi : Bool) (router : String → Nat)
    (args : List String) (numShards start iEnd step s j : Nat)
    (hstart : start ≠ args.length) (hstart1 : 1 ≤ start)
    (hsingle : multi = true ∨ start + step < iEnd)
    (hs : s < numShards)
    (hcnt2 : 2 ≤ (initByArgs false multi router numShards args start
      iEnd step).unique_shard_cnt)
    (hj : j < (bucketAt router args start iEnd step s).length) :
    reverseArgIndex (initByArgs false multi router numShards args start iEnd step) s j
      = (initByArgs false multi router numShards args start iEnd step).reverse_index.getD
          (argStartAt router args start iEnd step s + j) 0 ∧
    (initByArgs false multi router numShards args start iEnd step).packedArgs.getD
        (argStartAt router args start iEnd step s + j) ""
      = argAt args
          ((initByArgs false multi router numShards args start iEnd step).reverse_index.getD
            (argStartAt router args start iEnd step s + j) 0 + 1) ∧
    (∀ t : TxInit, t.unique_shard_cnt = 1 → reverseArgIndex t s j = j) := by
  obtain ⟨hcnt, hpacked, hrev⟩ := initByArgs_general_cnt multi router args numShards
    start iEnd step hstart hsingle
  have hne1 : ((List.range numShards).filter
      (fun s2 => !(bucketAt router args start iEnd step s2).isEmpty)).length ≠ 1 := by
    rw [hcnt] at hcnt2; omega
  have hsd := initByArgs_general_sd multi router args numShards start iEnd step
    hstart hsingle hne1
  have hcne1 : (initByArgs false multi router numShards args start
      iEnd step).unique_shard_cnt ≠ 1 := by omega
  -- the element of bucket s at position j
  have hjelem : j < ((bucketAt router args start iEnd step s).map Prod.fst).length := by
    rw [List.length_map]; exact hj
  have hjelem2 : j < ((bucketAt router args start iEnd step s).map Prod.snd).length := by
    rw [List.length_map]; exact hj
  -- the sums of the mapped block lengths agree with argStartAt
  have hsumf : ((List.range s).map
      (fun r => ((bucketAt router args start iEnd step r).map Prod.fst).length)).sum
      = argStartAt router args start iEnd step s := by
    unfold argStartAt
    congr 1
    exact List.map_congr_left (fun r _ => by rw [List.length_map])
  have hsums : ((List.range s).map
      (fun r => ((bucketAt router args start iEnd step r).map Prod.snd).length)).sum
      = argStartAt router args start iEnd step s := by
    unfold argStartAt
    congr 1
    exact List.map_congr_left (fun r _ => by rw [List.length_map])
  -- flatten access for the packed arguments
  have hpgetD : (initByArgs false multi router numShards args start
      iEnd step).packedArgs.getD (argStartAt router args start iEnd step s + j) ""
      = ((bucketAt router args start iEnd step s).map Prod.fst).getD j "" := by
    rw [hpacked, range_decomp s numShards hs, ← hsumf]
    exact flatMap_getD_block _ "" (List.range s) s _ j hjelem
  have hrgetD : (initByArgs false multi router numShards args start
      iEnd step).reverse_index.getD (argStartAt router args start iEnd step s + j) 0
      = ((bucketAt router args start iEnd step s).map Prod.snd).getD j 0 := by
    rw [hrev, range_decomp s numShards hs, ← hsums]
    exact flatMap_getD_block _ 0 (List.range s) s _ j hjelem2
  -- getD through map is the projection of the bucket element
  have hfst : ((bucketAt router args start iEnd step s).map Prod.fst).getD j ""
      = ((bucketAt router args start iEnd step s).getD j ("", 0)).1 := by
    rw [List.getD_eq_getElem _ _ hjelem, List.getD_eq_getElem _ _ hj, List.getElem_map]
  have hsnd : ((bucketAt router args start iEnd step s).map Prod.snd).getD j 0
      = ((bucketAt router args start iEnd step s).getD j ("", 0)).2 := by
    rw [List.getD_eq_getElem _ _ hjelem2, List.getD_eq_getElem _ _ hj, List.getElem_map]
  have hmem : (bucketAt router args start iEnd step s).getD j ("", 0)
      ∈ bucketAt router args start iEnd step s := by
    rw [List.getD_eq_getElem _ _ hj]
    exact List.getElem_mem hj
  have hval := bucketAt_mem_fst router args start iEnd step s hstart1 _ hmem
  -- the slot holds arg_start = argStartAt s
  have hlen : s < ((List.range numShards).map (fun s2 =>
      (⟨(argStartAt router args start iEnd step s2 : Int),
        ((bucketAt router args start iEnd step s2).length : Int),
        none, 0⟩ : PerShardData))).length := by
    rw [List.length_map, List.length_range]
    exact hs
  have hstartfield : ((initByArgs false multi router numShards args start
      iEnd step).shard_data.getD s defaultSD).arg_start.toNat
      = argStartAt router args start iEnd step s := by
    rw [hsd, List.getD_eq_getElem _ _ hlen, List.getElem_map, List.getElem_range]
    exact Int.toNat_natCast _
  refine ⟨?_, ?_, ?_⟩
  · unfold reverseArgIndex
    rw [if_neg hcne1, hstartfield]
  · rw [hpgetD, hrgetD, hfst, hsnd]
    exact hval
  · intro t ht
    unfold reverseArgIndex
    rw [if_pos ht]

theorem c8_reverse_arg_index_amended_witness :
    reverseArgIndex c3Tx 0 1
      = c3Tx.reverse_index.getD (argStartAt c3Router c3Args 1 5 2 0 + 1) 0 ∧
    c3Tx.packedArgs.getD (argStartAt c3Router c3Args 1 5 2 0 + 1) ""
      = argAt c3Args
          (c3Tx.reverse_index.getD (argStartAt c3Router c3Args 1 5 2 0 + 1) 0 + 1) ∧
    reverseArgIndex c3Tx 0 1 = 1 ∧
    c3Tx.packedArgs.getD 1 "" = "v1" := by
  have h := c8_reverse_arg_index_amended false c3Router c3Args 2 1 5 2 0 1
    (by decide) (by decide) (Or.inr (by decide)) (by decide) (by decide) (by decide)
  exact ⟨h.1, h.2.1, by decide, by decide⟩

end Dfly
